import Mathlib

/-!
Shallow embedding of the atproto authentication slice:
* the federated JWT verifier (`authVerifier`, `authOptionalVerifier`, `verifyJwt`,
  `getJwtStrFromReq`, `parseB64UrlToJson`) of the bsky package,
* the local token authority (`verifyToken`, `verifyAdmin`, `parseBasicAuth`,
  `createAccessToken`, `createServiceJwt`, `jsonToB64Url`) of the pds package,
* the DID document cache (`cacheDid`, `checkCache`, `clear`) of the bsky package.

External collaborators (the DID resolver, the `crypto` signature primitive, the
`jsonwebtoken` library, the base64 codecs of `uint8arrays` and the JSON builtins)
are modelled as explicit parameters or as idealised functions, as noted at each
definition.  Machine time (`Date.now()`) is an explicit natural-number parameter
in milliseconds.
-/

set_option autoImplicit false

deriving instance DecidableEq for Except

/-! ### JavaScript `String.prototype.split` on a single-character separator -/

/-- Accumulator-passing worker for `splitOnChar`: `acc` holds the characters of
the current segment in reverse order. -/
def splitOnCharAux (c : Char) : List Char → List Char → List String
  | [], acc => [String.mk acc.reverse]
  | x :: xs, acc =>
    if x = c then String.mk acc.reverse :: splitOnCharAux c xs []
    else splitOnCharAux c xs (x :: acc)

/-- JavaScript `s.split(c)` for a one-character separator `c`: the list of
segments of `s` between occurrences of `c` (never empty; `"".split(c) = [""]`). -/
def splitOnChar (c : Char) (s : String) : List String :=
  splitOnCharAux c s.data []

theorem splitOnCharAux_ne_nil (c : Char) (xs acc : List Char) :
    splitOnCharAux c xs acc ≠ [] := by
  induction xs generalizing acc with
  | nil => simp [splitOnCharAux]
  | cons x xs ih =>
    simp only [splitOnCharAux]
    split
    · simp
    · exact ih _

/-- Every segment produced by `splitOnCharAux` is free of the separator,
provided the accumulator is. -/
theorem splitOnCharAux_not_mem (c : Char) (xs acc : List Char)
    (hacc : c ∉ acc) :
    ∀ seg ∈ splitOnCharAux c xs acc, c ∉ seg.data := by
  induction xs generalizing acc with
  | nil =>
    intro seg hseg
    simp only [splitOnCharAux, List.mem_singleton] at hseg
    subst hseg
    simpa using fun h => hacc (List.mem_reverse.mp h)
  | cons x xs ih =>
    intro seg hseg
    simp only [splitOnCharAux] at hseg
    by_cases hx : x = c
    · simp only [if_pos hx, List.mem_cons] at hseg
      rcases hseg with hseg | hseg
      · subst hseg
        simpa using fun h => hacc (List.mem_reverse.mp h)
      · exact ih [] (by simp) seg hseg
    · simp only [if_neg hx, List.mem_cons] at hseg
      refine ih (x :: acc) ?_ seg hseg
      intro h
      rcases List.mem_cons.mp h with h | h
      · exact hx h.symm
      · exact hacc h

/-- Every segment produced by `splitOnChar` is free of the separator. -/
theorem splitOnChar_not_mem (c : Char) (s : String) :
    ∀ seg ∈ splitOnChar c s, c ∉ seg.data :=
  splitOnCharAux_not_mem c s.data [] (by simp)

/-- Splitting a string that starts with a separator-free block `u` followed by
the separator peels off `u` as the first segment. -/
theorem splitOnCharAux_append (c : Char) (u rest acc : List Char)
    (hu : c ∉ u) :
    splitOnCharAux c (u ++ c :: rest) acc =
      String.mk (acc.reverse ++ u) :: splitOnCharAux c rest [] := by
  induction u generalizing acc with
  | nil => simp [splitOnCharAux]
  | cons x xs ih =>
    have hx : x ≠ c := fun h => hu (h ▸ List.mem_cons_self x xs)
    have hxs : c ∉ xs := fun h => hu (List.mem_cons_of_mem x h)
    simp only [List.cons_append, splitOnCharAux, if_neg hx, List.append_eq]
    rw [ih (x :: acc) hxs]
    simp

/-- If the separator does not occur in `s` at all, the split is `[s]`. -/
theorem splitOnCharAux_no_sep (c : Char) (xs acc : List Char) (h : c ∉ xs) :
    splitOnCharAux c xs acc = [String.mk (acc.reverse ++ xs)] := by
  induction xs generalizing acc with
  | nil => simp [splitOnCharAux]
  | cons x tl ih =>
    have hx : x ≠ c := fun hh => h (hh ▸ List.mem_cons_self x tl)
    have htl : c ∉ tl := fun hh => h (List.mem_cons_of_mem x hh)
    simp only [splitOnCharAux, if_neg hx]
    rw [ih (x :: acc) htl]
    simp

/-! ### Federated token verifier (bsky `auth.ts`)

`AuthRequiredError(message, customErrorName)` from `@atproto/xrpc-server` is
modelled as a pair of strings.  The DID resolver, the JSON parse of the payload
segment and `crypto.verifySignature` are external collaborators, passed in a
`VerifyEnv`; a signature routine that throws (e.g. on a malformed key) is
modelled as `Except.error ()`.  A resolver rejection or a JSON parse exception
propagates out of `verifyJwt` uncaught in the source (neither sits inside a
`try`), which the result type records as a failure that is not an
`AuthRequiredError`. -/

/-- `AuthRequiredError` with its message and custom error name. -/
structure AuthRequiredError where
  message : String
  errName : String
  deriving DecidableEq, Repr

/-- The `JwtPayload` type of the source: issuer DID and expiry in seconds.
`exp` is a JSON number, modelled as a rational so that the second-resolution
comparison against `Date.now() / 1000` is exact. -/
structure JwtPayload where
  iss : String
  exp : ℚ
  deriving DecidableEq

/-- The slice of `AtpData` the verifier uses: the issuer's signing key. -/
structure AtpData where
  signingKey : String
  deriving DecidableEq, Repr

/-- External collaborators of `verifyJwt`.  `ε` is the resolver's own error
type (opaque to the verifier). -/
structure VerifyEnv (ε : Type) where
  /-- `JSON.parse` of the payload segment followed by the `as JwtPayload` cast;
  `none` models a thrown `SyntaxError`. -/
  parseJson : String → Option JwtPayload
  /-- `didResolver.resolveAtpData` -/
  resolveAtpData : String → Except ε AtpData
  /-- `crypto.verifySignature key msgBytes sigB64url`; `Except.error ()` models
  a throw (malformed key), `Except.ok b` a clean boolean verdict. -/
  verifySignature : String → String → String → Except Unit Bool

/-- How a run of the federated verifier can fail. -/
inductive VerifyFailure (ε : Type) where
  /-- A typed `AuthRequiredError` raised by the verifier itself. -/
  | auth (e : AuthRequiredError)
  /-- `JSON.parse` threw on the payload segment; propagates untyped. -/
  | jsonError
  /-- The resolver rejected; its error propagates untyped. -/
  | resolverError (e : ε)

instance {ε : Type} [DecidableEq ε] : DecidableEq (VerifyFailure ε) := by
  intro a b
  cases a <;> cases b <;>
    first
      | (apply isFalse; intro h; exact VerifyFailure.noConfusion h)
      | (apply isTrue; rfl)
      | (rename_i x y
         exact match decEq x y with
           | isTrue h => isTrue (by rw [h])
           | isFalse h => isFalse (fun hh => h (by cases hh; rfl)))

/-- Does a `VerifyFailure` carry one of the verifier's typed
`AuthRequiredError` kinds? -/
def VerifyFailure.isAuth {ε : Type} : VerifyFailure ε → Bool
  | .auth _ => true
  | _ => false

/-- `verifyJwt didResolver jwtStr` of the source.  `nowMs` is `Date.now()` in
milliseconds; the expiry test compares `Date.now() / 1000 > payload.exp`
exactly as written.  On success it returns `payload.iss`. -/
def verifyJwt {ε : Type} (env : VerifyEnv ε) (nowMs : ℕ) (jwtStr : String) :
    Except (VerifyFailure ε) String :=
  match splitOnChar '.' jwtStr with
  | [h, p, s] =>
    match env.parseJson p with
    | none => .error .jsonError
    | some payload =>
      if (nowMs : ℚ) / 1000 > payload.exp then
        .error (.auth ⟨"jwt expired", "JwtExpired"⟩)
      else
        match env.resolveAtpData payload.iss with
        | .error e => .error (.resolverError e)
        | .ok atpData =>
          match env.verifySignature atpData.signingKey (h ++ "." ++ p) s with
          | .error _ =>
            .error (.auth ⟨"could not verify jwt signature", "BadJwtSignature"⟩)
          | .ok validSig =>
            if !validSig then
              .error (.auth ⟨"jwt signature does not match jwt issuer", "BadJwtSig"⟩)
            else
              .ok payload.iss
  | _ => .error (.auth ⟨"poorly formatted jwt", "BadJwt"⟩)

/-- JavaScript `String.prototype.trim`: strip leading and trailing
whitespace. -/
def jsTrim (s : String) : String :=
  String.mk (((s.data.dropWhile Char.isWhitespace).reverse.dropWhile
    Char.isWhitespace).reverse)

/-- JavaScript `s.startsWith(marker)`, expressed over the character lists. -/
def jsStartsWith (s marker : String) : Bool :=
  s.data.take marker.data.length = marker.data

/-- JavaScript `s.slice(n)` / drop of the first `n` characters. -/
def jsDrop (s : String) (n : ℕ) : String :=
  String.mk (s.data.drop n)

/-- `getJwtStrFromReq`: the request's `authorization` header (absent modelled
as `none`, JS default `''`).  `authorization.replace('Bearer ', '')` replaces
the first occurrence, which — given the `startsWith` guard — is the 7-character
leading marker, hence dropping 7 characters. -/
def getJwtStrFromReq (authorization : Option String) : Option String :=
  let a := authorization.getD ""
  if !jsStartsWith a "Bearer " then none
  else some (jsTrim (jsDrop a 7))

/-- `authVerifier`: required federated verification of a request.  Success
carries `credentials.did`, with `some` for a verified DID (the optional
variant can also succeed with `none` = anonymous). -/
def authVerifier {ε : Type} (env : VerifyEnv ε) (nowMs : ℕ)
    (authorization : Option String) :
    Except (VerifyFailure ε) (Option String) :=
  match getJwtStrFromReq authorization with
  | none => .error (.auth ⟨"missing jwt", "MissingJwt"⟩)
  | some jwtStr => (verifyJwt env nowMs jwtStr).map some

/-- `authOptionalVerifier`: on a falsy `authorization` header (absent, or the
empty string — JS `!reqCtx.req.headers.authorization`) return the anonymous
credential `{ did: null }`; otherwise behave as `authVerifier`. -/
def authOptionalVerifier {ε : Type} (env : VerifyEnv ε) (nowMs : ℕ)
    (authorization : Option String) :
    Except (VerifyFailure ε) (Option String) :=
  if authorization.getD "" = "" then .ok none
  else authVerifier env nowMs authorization

/-! ### Local token authority (pds `auth.ts`)

The `jsonwebtoken` library is external.  A signed token is modelled as its
payload together with the secret that signed it; `jwt.verify(token, secret)`
is the ideal HMAC: it accepts exactly when the secrets coincide, and reports
`TokenExpiredError` when the expiry has passed (`clockTimestamp >= exp`). -/

/-- The `AuthScope` enumeration of the source. -/
inductive AuthScope where
  | access
  | refresh
  | appPass
  deriving DecidableEq, Repr

/-- A token produced by `jwt.sign`: the `AuthToken` payload
(`scope`, `sub`, `exp` set by `sign()`, optional `jti` for refresh tokens)
plus the signing secret, standing in for the HMAC signature. -/
structure SignedToken where
  scope : AuthScope
  sub : String
  exp : ℕ
  jti : Option String
  secret : String
  deriving DecidableEq, Repr

/-- How `jwt.verify` can throw. -/
inductive JwtVerifyError where
  | tokenExpired
  | invalidSignature
  deriving DecidableEq, Repr

/-- Idealised `jwt.verify(token, secret)` at clock `nowSec` (seconds):
signature check first, then expiry (`TokenExpiredError` when
`clockTimestamp >= exp`), then the payload is returned. -/
def jwtVerify (token : SignedToken) (secret : String) (nowSec : ℕ) :
    Except JwtVerifyError SignedToken :=
  if token.secret ≠ secret then .error .invalidSignature
  else if nowSec ≥ token.exp then .error .tokenExpired
  else .ok token

/-- `InvalidRequestError(message, customErrorName)` from `@atproto/xrpc-server`. -/
structure InvalidRequestError where
  message : String
  errName : String
  deriving DecidableEq, Repr

/-- `ServerAuth.verifyToken(token, scopes)` of the source.  The scope check
throws `InvalidRequestError('Bad token scope', 'InvalidToken')` inside the
`try`, so the surrounding `catch` (the error is not a `TokenExpiredError`)
rewraps it as `('Token could not be verified', 'InvalidToken')`; the
`typeof payload === 'string' || 'signature' in payload` guard cannot fire in
this model, where a verified payload is always a `SignedToken` record. -/
def verifyToken (secret : String) (nowSec : ℕ) (token : SignedToken)
    (scopes : List AuthScope) : Except InvalidRequestError SignedToken :=
  match jwtVerify token secret nowSec with
  | .error .tokenExpired => .error ⟨"Token has expired", "ExpiredToken"⟩
  | .error .invalidSignature => .error ⟨"Token could not be verified", "InvalidToken"⟩
  | .ok payload =>
    if scopes.length > 0 ∧ payload.scope ∉ scopes then
      .error ⟨"Token could not be verified", "InvalidToken"⟩
    else
      .ok payload

/-- `ServerAuth.createAccessToken`: signs `{scope, sub}` with the server
secret; `exp` is set at sign time from `expiresIn` (default 120 minutes). -/
def createAccessToken (secret : String) (did : String) (scope : AuthScope)
    (expiresInSec : ℕ) (nowSec : ℕ) : SignedToken :=
  { scope := scope, sub := did, exp := nowSec + expiresInSec, jti := none,
    secret := secret }

/-- `parseBasicAuth` of the source.  `b64decodeUtf8` is the external
`ui8.toString(ui8.fromString(b64, 'base64pad'), 'utf8')` codec; `none` models
a throw on undecodable input (caught, yielding `null`).  The decoded string is
split on every `':'`; JS destructuring `const [username, password] = parsed`
keeps the first two segments, and a falsy (empty or missing) username or
password yields `null`. -/
def parseBasicAuth (b64decodeUtf8 : String → Option String) (token : String) :
    Option (String × String) :=
  if !jsStartsWith token "Basic " then none
  else
    match b64decodeUtf8 (jsDrop token 6) with
    | none => none
    | some decoded =>
      match splitOnChar ':' decoded with
      | username :: password :: _ =>
        if username = "" ∨ password = "" then none
        else some (username, password)
      | _ => none

/-- `ServerAuth.verifyAdmin`: parse HTTP Basic credentials from the
`authorization` header (absent modelled as `none`, JS default `''`), then
require the exact username `'admin'` and the exact configured admin
password. -/
def verifyAdmin (b64decodeUtf8 : String → Option String) (adminPass : String)
    (authorization : Option String) : Bool :=
  match parseBasicAuth b64decodeUtf8 (authorization.getD "") with
  | none => false
  | some (username, password) =>
    if username ≠ "admin" then false
    else if password ≠ adminPass then false
    else true

/-! ### DID document cache (bsky `did-cache.ts`)

The `did_cache` table has columns `{did (unique), doc, updatedAt}`; it is
modelled as a list of rows, `executeTakeFirst` of the filtered select as
`List.find?`.  Documents are opaque strings. -/

/-- A row of the `did_cache` table. -/
structure DidCacheRow where
  did : String
  doc : String
  updatedAt : ℕ
  deriving DecidableEq, Repr

/-- `DidSqlCache.cacheDid(did, doc)`: `INSERT ... ON CONFLICT (did) DO UPDATE
SET doc, updatedAt` — an atomic upsert keyed on the unique `did` column that
unconditionally overwrites the document and refreshes the timestamp.  `now` is
`Date.now()` at the write. -/
def cacheDid (db : List DidCacheRow) (did doc : String) (now : ℕ) :
    List DidCacheRow :=
  if db.any (fun r => r.did = did) then
    db.map (fun r => if r.did = did then { r with doc := doc, updatedAt := now } else r)
  else
    db ++ [⟨did, doc, now⟩]

/-- The `CacheResult` returned by `checkCache`. -/
structure CacheResult where
  doc : String
  updatedAt : ℕ
  did : String
  expired : Bool
  deriving DecidableEq, Repr

/-- `DidSqlCache.checkCache(did)`: select the row for `did` (absent → `null`);
`expired` is computed at read time as `now > updatedAt + ttl`
(`new Date(res.updatedAt).getTime()` is the identity on a millisecond
timestamp). -/
def checkCache (db : List DidCacheRow) (ttl : ℕ) (did : String) (now : ℕ) :
    Option CacheResult :=
  match db.find? (fun r => r.did = did) with
  | none => none
  | some res => some ⟨res.doc, res.updatedAt, did, decide (now > res.updatedAt + ttl)⟩

/-- `DidSqlCache.clear()`: unconditional full wipe of the table. -/
def clearCache (_db : List DidCacheRow) : List DidCacheRow := []

/-- The unique constraint on the `did` column: no two rows share a `did`. -/
def uniqueDids (db : List DidCacheRow) : Prop :=
  db.Pairwise (fun r r2 => r.did ≠ r2.did)

/-! ### Single-flight resolution registry

Modelled from the spec: the dedupe mechanism that collapses concurrent cache
misses for one identity into a single resolver call is not part of the sources
(`did-cache.ts` only declares the `pQueue` field); §4.4/§9 describe it as a
per-identity registry mapping an identity to a shared pending result.
Concurrency is embedded as a sequence of events: a `requestResolve` that
arrives while the identity is in flight joins the pending result instead of
calling the resolver again, and `completeResolve` retires the entry. -/

/-- Modelled from the spec: the state of the per-identity single-flight
registry, together with a log of the resolver calls actually issued. -/
structure FlightState where
  inflight : List String
  resolverCalls : List String
  deriving DecidableEq, Repr

/-- Modelled from the spec: a cache miss for `did` arrives.  If a resolution
for `did` is already in flight the caller joins the shared pending result (no
resolver call); otherwise a single resolver call is issued and registered. -/
def requestResolve (s : FlightState) (did : String) : FlightState :=
  if did ∈ s.inflight then s
  else { inflight := did :: s.inflight, resolverCalls := did :: s.resolverCalls }

/-- Modelled from the spec: the in-flight resolution for `did` completes and
its registry entry is retired. -/
def completeResolve (s : FlightState) (did : String) : FlightState :=
  { s with inflight := s.inflight.erase did }

/-- `n` cache misses for the same identity arriving with no intervening
completion. -/
def concurrentMisses (s : FlightState) (did : String) : ℕ → FlightState
  | 0 => s
  | n + 1 => requestResolve (concurrentMisses s did n) did

/-! ### Service token issuer (pds `auth.ts`)

`jsonToB64Url` of the source is
`ui8.toString(ui8.fromString(JSON.stringify(json), 'utf8'))`: the second
argument of `ui8.toString` is omitted, so the bytes are decoded back with the
default `'utf8'` encoding and the result is the JSON text itself — no base64url
step.  `JSON.stringify` is a JS builtin, passed as a parameter; the UTF-8
encode/decode round-trip is the identity on strings. -/

/-- The service JWT header `{typ, alg}`. -/
structure ServiceJwtHeader where
  typ : String
  alg : String
  deriving DecidableEq, Repr

/-- The service JWT payload `{iss, exp}` (expiry in whole seconds). -/
structure ServiceJwtPayload where
  iss : String
  exp : ℕ
  deriving DecidableEq, Repr

/-- `jsonToB64Url(json)` of the source: UTF-8 encode the JSON text, then decode
with the default `'utf8'` encoding — i.e. the JSON text unchanged, with no
base64url encoding applied. -/
def jsonToB64Url {α : Type} (stringify : α → String) (json : α) : String :=
  stringify json

/-- `parseB64UrlToJson(b64)` of the bsky verifier:
`JSON.parse(ui8.toString(ui8.fromString(b64, 'utf8')))` — UTF-8 encode and
decode (the identity), then `JSON.parse`, with no base64url decoding applied.
`parse` is the JS builtin, `none` a thrown `SyntaxError`. -/
def parseB64UrlToJson {α : Type} (parse : String → Option α) (b64 : String) :
    Option α :=
  parse b64

/-- `MINUTE` from `@atproto/common`, in milliseconds. -/
def MINUTE : ℕ := 60000

/-- `createServiceJwt(accountDid, keypair)`: header `{typ: 'JWT', alg:
keypair.jwtAlg}`, payload `{iss: accountDid, exp: floor((Date.now() +
MINUTE) / 1000)}`; sign `header.payload` and append the base64url signature.
`stringifyH`/`stringifyP` are `JSON.stringify` on the two object shapes and
`signB64url` is `keypair.sign` composed with base64url rendering. -/
def createServiceJwt (stringifyH : ServiceJwtHeader → String)
    (stringifyP : ServiceJwtPayload → String) (signB64url : String → String)
    (jwtAlg : String) (accountDid : String) (nowMs : ℕ) : String :=
  let header : ServiceJwtHeader := ⟨"JWT", jwtAlg⟩
  let exp := (nowMs + MINUTE) / 1000
  let payload : ServiceJwtPayload := ⟨accountDid, exp⟩
  let toSignStr := jsonToB64Url stringifyH header ++ "." ++ jsonToB64Url stringifyP payload
  toSignStr ++ "." ++ signB64url toSignStr

/-- A concrete `JSON.stringify` for the service JWT payload shape, used to
instantiate the external-builtin parameters on concrete inputs (correct for
issuer strings needing no JSON escaping, as DIDs never do). -/
def stringifyServicePayload (p : ServiceJwtPayload) : String :=
  "\x7b\"iss\":\"" ++ p.iss ++ "\",\"exp\":" ++ toString p.exp ++ "\x7d"

/-- Digits of a decimal literal: longest digit run and the rest. -/
def spanDigits : List Char → List Char × List Char
  | [] => ([], [])
  | x :: xs =>
    if x.isDigit then
      let (ds, rest) := spanDigits xs
      (x :: ds, rest)
    else
      ([], x :: xs)

/-- Decimal digits to a natural number. -/
def digitsToNat (l : List Char) : ℕ :=
  l.foldl (fun n c => 10 * n + (c.toNat - Char.toNat (Char.ofNat 48))) 0

/-- A concrete `JSON.parse` for the exact object shape emitted by
`stringifyServicePayload`, used to instantiate the external-builtin parameters
on concrete inputs. -/
def parseServicePayload (s : String) : Option ServiceJwtPayload :=
  let chars := s.data
  let pre := "\x7b\"iss\":\"".data
  if chars.take 8 = pre then
    let afterPre := chars.drop 8
    let issChars := afterPre.takeWhile (fun c => c ≠ '"')
    let afterIss := afterPre.drop issChars.length
    let mid := "\",\"exp\":".data
    if afterIss.take 8 = mid then
      let afterMid := afterIss.drop 8
      let (ds, rest) := spanDigits afterMid
      if ds ≠ [] ∧ rest = ['}'] then
        some ⟨String.mk issChars, digitsToNat ds⟩
      else none
    else none
  else none

/-! ### Claims -/

/-- C1: for the required federated verifier, a token whose payload expiry
equals the current second (`now_seconds = exp`) is accepted, and a token is
rejected with the expired failure exactly when `now_seconds` is strictly
greater than its payload expiry (exclusive boundary). -/
theorem verifyJwt_expiry_boundary {ε : Type} (env : VerifyEnv ε) (nowMs : ℕ)
    (jwtStr h p s : String) (payload : JwtPayload)
    (hsplit : splitOnChar '.' jwtStr = [h, p, s])
    (hparse : env.parseJson p = some payload) :
    (verifyJwt env nowMs jwtStr = .error (.auth ⟨"jwt expired", "JwtExpired"⟩) ↔
      (nowMs : ℚ) / 1000 > payload.exp) ∧
    ((nowMs : ℚ) / 1000 = payload.exp →
      ∀ atp : AtpData, env.resolveAtpData payload.iss = .ok atp →
        env.verifySignature atp.signingKey (h ++ "." ++ p) s = .ok true →
        verifyJwt env nowMs jwtStr = .ok payload.iss) := by
  constructor
  · constructor
    · intro hres
      by_contra hlt
      simp only [verifyJwt, hsplit, hparse, if_neg hlt] at hres
      rcases hr : env.resolveAtpData payload.iss with e | atp <;> simp [hr] at hres
      rcases hv : env.verifySignature atp.signingKey (h ++ "." ++ p) s with u | b <;>
        simp [hv] at hres
      cases b <;> simp at hres
    · intro hlt
      simp [verifyJwt, hsplit, hparse, if_pos hlt]
  · intro heq atp hres hsig
    have hnot : ¬((nowMs : ℚ) / 1000 > payload.exp) := by rw [heq]; exact lt_irrefl _
    simp [verifyJwt, hsplit, hparse, if_neg hnot, hres, hsig]

/-- Concrete environment for the C1 witness: the payload segment `"p"` parses
to issuer `did:ex` with expiry second 5; resolution and signature checks
succeed. -/
def envC1 : VerifyEnv Unit :=
  ⟨fun str => if str = "p" then some ⟨"did:ex", 5⟩ else none,
   fun _ => .ok ⟨"key"⟩,
   fun _ _ _ => .ok true⟩

/-- C1 witness: at `Date.now() = 5000` ms (current second = expiry = 5) the
token verifies; at 5001 ms it is rejected as expired. -/
theorem verifyJwt_expiry_boundary_witness :
    verifyJwt envC1 5000 "h.p.s" = .ok "did:ex" ∧
    verifyJwt envC1 5001 "h.p.s" = .error (.auth ⟨"jwt expired", "JwtExpired"⟩) := by
  constructor
  · exact (verifyJwt_expiry_boundary envC1 5000 "h.p.s" "h" "p" "s" ⟨"did:ex", 5⟩
      (by decide) (by decide)).2 (by norm_num) ⟨"key"⟩ rfl rfl
  · exact (verifyJwt_expiry_boundary envC1 5001 "h.p.s" "h" "p" "s" ⟨"did:ex", 5⟩
      (by decide) (by decide)).1.mpr (by norm_num)

/-- Concrete environment for the C2 counterexample: the resolver rejects. -/
def envC2x : VerifyEnv Unit :=
  ⟨fun _ => some ⟨"did:x", 10⟩, fun _ => .error (), fun _ _ _ => .ok true⟩

/-- C2 counterexample: on a well-formed unexpired token whose issuer the
resolver fails to resolve, `verifyJwt` fails with the resolver's own error,
propagated uncaught — not with any of the verifier's typed
`AuthRequiredError` kinds.  So not every failure of the federated verifier
yields one of the typed failure kinds. -/
theorem verifyJwt_resolver_error_escapes :
    verifyJwt envC2x 0 "a.b.c" = .error (.resolverError ()) ∧
    (VerifyFailure.resolverError () : VerifyFailure Unit).isAuth = false := by
  constructor
  · have hsp : splitOnChar '.' "a.b.c" = ["a", "b", "c"] := by decide
    have hne : ¬(((0 : ℕ) : ℚ) / 1000 > (10 : ℚ)) := by norm_num
    simp only [verifyJwt, hsp]
    norm_num [envC2x]
  · rfl

/-- C2 (amended): every `AuthRequiredError` failure of the federated verifier
carries exactly one of the typed kinds `MissingJwt`, `BadJwt`, `JwtExpired`,
`BadJwtSignature`, `BadJwtSig`; a throw inside signature verification (e.g. a
malformed key) yields `BadJwtSignature`, which is distinct from the
`BadJwtSig` kind produced when a structurally valid signature simply does not
match; but a resolver failure propagates as the resolver's own untyped error
rather than as a typed kind. -/
theorem verifyJwt_failure_taxonomy {ε : Type} (env : VerifyEnv ε) (nowMs : ℕ)
    (authorization : Option String) :
    (∀ e : AuthRequiredError,
      authVerifier env nowMs authorization = .error (.auth e) →
      e.errName ∈ ["MissingJwt", "BadJwt", "JwtExpired", "BadJwtSignature", "BadJwtSig"]) ∧
    (∀ jwtStr h p s payload atp,
      splitOnChar '.' jwtStr = [h, p, s] →
      env.parseJson p = some payload →
      ¬((nowMs : ℚ) / 1000 > payload.exp) →
      env.resolveAtpData payload.iss = .ok atp →
      (env.verifySignature atp.signingKey (h ++ "." ++ p) s = .error () →
        verifyJwt env nowMs jwtStr =
          .error (.auth ⟨"could not verify jwt signature", "BadJwtSignature"⟩)) ∧
      (env.verifySignature atp.signingKey (h ++ "." ++ p) s = .ok false →
        verifyJwt env nowMs jwtStr =
          .error (.auth ⟨"jwt signature does not match jwt issuer", "BadJwtSig"⟩))) ∧
    ("BadJwtSignature" : String) ≠ "BadJwtSig" := by
  refine ⟨?_, ?_, by decide⟩
  · intro e he
    unfold authVerifier at he
    split at he
    · have h1 : (⟨"missing jwt", "MissingJwt"⟩ : AuthRequiredError) = e :=
        VerifyFailure.auth.inj (Except.error.inj he)
      rw [← h1]; decide
    · rename_i jwtStr hjwt
      rcases hv : verifyJwt env nowMs jwtStr with f | did <;> rw [hv] at he
      · have he2 : (Except.error f : Except (VerifyFailure ε) (Option String)) =
          .error (.auth e) := he
        have hf : f = .auth e := Except.error.inj he2
        subst hf
        unfold verifyJwt at hv
        split at hv
        · split at hv
          · exact absurd (Except.error.inj hv)
              (fun hh => VerifyFailure.noConfusion hh)
          · split at hv
            · have h1 : (⟨"jwt expired", "JwtExpired"⟩ : AuthRequiredError) = e :=
                VerifyFailure.auth.inj (Except.error.inj hv)
              rw [← h1]; decide
            · split at hv
              · exact absurd (Except.error.inj hv)
                  (fun hh => VerifyFailure.noConfusion hh)
              · split at hv
                · have h1 : (⟨"could not verify jwt signature", "BadJwtSignature"⟩ :
                      AuthRequiredError) = e :=
                    VerifyFailure.auth.inj (Except.error.inj hv)
                  rw [← h1]; decide
                · split at hv
                  · have h1 : (⟨"jwt signature does not match jwt issuer", "BadJwtSig"⟩ :
                        AuthRequiredError) = e :=
                      VerifyFailure.auth.inj (Except.error.inj hv)
                    rw [← h1]; decide
                  · exact absurd hv (fun hh => Except.noConfusion hh)
        · have h1 : (⟨"poorly formatted jwt", "BadJwt"⟩ : AuthRequiredError) = e :=
            VerifyFailure.auth.inj (Except.error.inj hv)
          rw [← h1]; decide
      · exact Except.noConfusion
          (show (Except.ok (some did) : Except (VerifyFailure ε) (Option String)) =
            .error (.auth e) from he)
  · intro jwtStr h p s payload atp hsplit hparse hexp hres
    constructor <;> intro hsig <;>
      simp [verifyJwt, hsplit, hparse, if_neg hexp, hres, hsig]

/-- Concrete environment for the C2 witness: resolution succeeds but the
signature primitive throws (malformed key). -/
def envC2w : VerifyEnv Unit :=
  ⟨fun str => if str = "p" then some ⟨"did:ex", 10⟩ else none,
   fun _ => .ok ⟨"badkey"⟩,
   fun _ _ _ => .error ()⟩

/-- C2 witness: a throwing signature check yields the `BadJwtSignature` kind,
and a concrete missing-credential failure's kind is one of the taxonomy's. -/
theorem verifyJwt_failure_taxonomy_witness :
    verifyJwt envC2w 0 "h.p.s" =
      .error (.auth ⟨"could not verify jwt signature", "BadJwtSignature"⟩) ∧
    ("MissingJwt" : String) ∈
      ["MissingJwt", "BadJwt", "JwtExpired", "BadJwtSignature", "BadJwtSig"] := by
  constructor
  · exact ((verifyJwt_failure_taxonomy envC2w 0 none).2.1 "h.p.s" "h" "p" "s"
      ⟨"did:ex", 10⟩ ⟨"badkey"⟩ (by decide) (by decide) (by norm_num) rfl).1 rfl
  · exact (verifyJwt_failure_taxonomy envC2w 0 none).1
      ⟨"missing jwt", "MissingJwt"⟩ (by rfl)

/-- Concrete environment for the C3 counterexample. -/
def envC3 : VerifyEnv Unit :=
  ⟨fun _ => some ⟨"did:x", 10⟩, fun _ => .ok ⟨"k"⟩, fun _ _ _ => .ok true⟩

/-- C3 counterexample: on a request whose `Authorization` header is present
but empty (`authorization = ""`, a falsy JS string), the optional verifier
returns the anonymous identity while the required verifier fails with
`MissingJwt` — so a present header does not always produce the same result as
the required verifier. -/
theorem authOptionalVerifier_empty_header_diverges :
    authOptionalVerifier envC3 0 (some "") = .ok none ∧
    authVerifier envC3 0 (some "") = .error (.auth ⟨"missing jwt", "MissingJwt"⟩) ∧
    (Except.ok none : Except (VerifyFailure Unit) (Option String)) ≠
      .error (.auth ⟨"missing jwt", "MissingJwt"⟩) := by
  refine ⟨rfl, rfl, ?_⟩
  intro hh
  exact Except.noConfusion hh

/-- C3 (amended): the optional-auth verifier returns the anonymous identity
(`did = null`) and raises no failure whenever the `Authorization` header is
absent — and also when it is present but the empty string, which JS treats as
falsy; for every request with a present non-empty `Authorization` header it
produces exactly the same result (success or failure) as the required
verifier. -/
theorem authOptionalVerifier_optionality {ε : Type} (env : VerifyEnv ε)
    (nowMs : ℕ) :
    (authOptionalVerifier env nowMs none = .ok none) ∧
    (authOptionalVerifier env nowMs (some "") = .ok none) ∧
    (∀ str : String, str ≠ "" →
      authOptionalVerifier env nowMs (some str) = authVerifier env nowMs (some str)) := by
  refine ⟨rfl, rfl, ?_⟩
  intro str hstr
  unfold authOptionalVerifier
  rw [if_neg (by simpa using hstr)]

/-- C3 witness: with a present non-empty (malformed) header the optional
verifier coincides with the required verifier on a concrete request. -/
theorem authOptionalVerifier_optionality_witness :
    authOptionalVerifier envC3 0 (some "garbage") = authVerifier envC3 0 (some "garbage") ∧
    authOptionalVerifier envC3 0 none = .ok none := by
  exact ⟨(authOptionalVerifier_optionality envC3 0).2.2 "garbage" (by decide),
    (authOptionalVerifier_optionality envC3 0).1⟩

/-- C4: a token issued with scope `s` and not yet expired verifies under an
allow-list exactly when the allow-list is empty (scope checking skipped) or
contains `s`; under a non-empty allow-list excluding `s` it fails with an
invalid-token failure. -/
theorem verifyToken_scope_allowlist (secret did : String) (s : AuthScope)
    (ttlSec now0 nowSec : ℕ) (scopes : List AuthScope)
    (hexp : nowSec < now0 + ttlSec) :
    (verifyToken secret nowSec (createAccessToken secret did s ttlSec now0) scopes =
        .ok (createAccessToken secret did s ttlSec now0) ↔
      scopes = [] ∨ s ∈ scopes) ∧
    (scopes ≠ [] → s ∉ scopes →
      verifyToken secret nowSec (createAccessToken secret did s ttlSec now0) scopes =
        .error ⟨"Token could not be verified", "InvalidToken"⟩) := by
  have hv : jwtVerify (createAccessToken secret did s ttlSec now0) secret nowSec =
      .ok (createAccessToken secret did s ttlSec now0) := by
    unfold jwtVerify createAccessToken
    rw [if_neg (by simp), if_neg (by simp; omega)]
  constructor
  · constructor
    · intro hok
      by_contra hcon
      push_neg at hcon
      obtain ⟨hne, hnotin⟩ := hcon
      have hlen : 0 < scopes.length := List.length_pos.mpr hne
      simp only [verifyToken, hv] at hok
      rw [if_pos ⟨hlen, by simpa using hnotin⟩] at hok
      exact Except.noConfusion hok
    · intro hmem
      simp only [verifyToken, hv]
      rw [if_neg ?_]
      intro hcon
      rcases hmem with rfl | hmem
      · simp at hcon
      · exact hcon.2 (by simpa using hmem)
  · intro hne hnotin
    have hlen : 0 < scopes.length := List.length_pos.mpr hne
    simp only [verifyToken, hv]
    rw [if_pos ⟨hlen, by simpa using hnotin⟩]

/-- C4 witness: a token of scope `appPass`, not expired, fails under the
allow-list `[access]`, succeeds under `[access, appPass]`, and succeeds under
the empty allow-list. -/
theorem verifyToken_scope_allowlist_witness :
    verifyToken "sec" 10 (createAccessToken "sec" "did:a" .appPass 7200 5)
        [.access] = .error ⟨"Token could not be verified", "InvalidToken"⟩ ∧
    verifyToken "sec" 10 (createAccessToken "sec" "did:a" .appPass 7200 5)
        [.access, .appPass] = .ok (createAccessToken "sec" "did:a" .appPass 7200 5) ∧
    verifyToken "sec" 10 (createAccessToken "sec" "did:a" .appPass 7200 5)
        [] = .ok (createAccessToken "sec" "did:a" .appPass 7200 5) := by
  refine ⟨(verifyToken_scope_allowlist "sec" "did:a" .appPass 7200 5 10 [.access]
      (by omega)).2 (by decide) (by decide),
    (verifyToken_scope_allowlist "sec" "did:a" .appPass 7200 5 10 [.access, .appPass]
      (by omega)).1.mpr (by decide),
    (verifyToken_scope_allowlist "sec" "did:a" .appPass 7200 5 10 []
      (by omega)).1.mpr (by decide)⟩

/-- C5: admin verification returns `true` exactly when the Basic credentials
decode to exactly the username `admin` and exactly the configured admin
password; an absent header, a non-Basic scheme, or undecodable base64 always
yields `false` (and the checker is a total boolean function — it never
raises). -/
theorem verifyAdmin_exact_credentials (b64 : String → Option String)
    (adminPass : String) (authorization : Option String) :
    (verifyAdmin b64 adminPass authorization = true ↔
      parseBasicAuth b64 (authorization.getD "") = some ("admin", adminPass)) ∧
    (authorization = none → verifyAdmin b64 adminPass authorization = false) ∧
    (jsStartsWith (authorization.getD "") "Basic " = false →
      verifyAdmin b64 adminPass authorization = false) ∧
    (b64 (jsDrop (authorization.getD "") 6) = none →
      verifyAdmin b64 adminPass authorization = false) := by
  refine ⟨?_, ?_, ?_, ?_⟩
  · unfold verifyAdmin
    rcases hp : parseBasicAuth b64 (authorization.getD "") with _ | ⟨u, pw⟩
    · simp
    · by_cases hu : u = "admin"
      · by_cases hpw : pw = adminPass
        · simp [hu, hpw]
        · simp [hu, hpw]
      · simp [hu]
  · intro hnone
    subst hnone
    rfl
  · intro hst
    unfold verifyAdmin parseBasicAuth
    rw [hst]
    rfl
  · intro hdec
    by_cases hst : jsStartsWith (authorization.getD "") "Basic " = false
    · unfold verifyAdmin parseBasicAuth
      rw [hst]
      rfl
    · rw [Bool.not_eq_false] at hst
      unfold verifyAdmin parseBasicAuth
      rw [hst, hdec]
      rfl

/-- The identity decoder, standing in for the external base64 codec in the C5
witness. -/
def b64id : String → Option String := fun str => some str

/-- C5 witness: with identity decoding, `Basic admin:pw` matches the
configured password `pw`; an absent header yields `false`. -/
theorem verifyAdmin_exact_credentials_witness :
    verifyAdmin b64id "pw" (some "Basic admin:pw") = true ∧
    verifyAdmin b64id "pw" none = false := by
  exact ⟨(verifyAdmin_exact_credentials b64id "pw" (some "Basic admin:pw")).1.mpr
      (by decide),
    (verifyAdmin_exact_credentials b64id "pw" none).2.1 rfl⟩

/-- After an upsert for `did`, the first row selected for `did` is the row
just written: the fresh document and timestamp. -/
theorem find?_cacheDid (db : List DidCacheRow) (did doc : String) (t : ℕ) :
    (cacheDid db did doc t).find? (fun r => r.did = did) = some ⟨did, doc, t⟩ := by
  induction db with
  | nil => simp [cacheDid, List.find?]
  | cons r rs ih =>
    by_cases hr : r.did = did
    · have hany : (r :: rs).any (fun x => x.did = did) = true := by simp [hr]
      simp only [cacheDid, hany, if_true, List.map_cons, List.find?_cons]
      simp [hr]
    · by_cases hany2 : rs.any (fun x => x.did = did) = true
      · have hany : (r :: rs).any (fun x => x.did = did) = true := by
          simp [List.any_cons, hany2]
        simp only [cacheDid, hany, if_true, List.map_cons, List.find?_cons]
        rw [if_neg (by simp [hr]), decide_eq_false hr]
        simp only [cacheDid, hany2, if_true] at ih
        exact ih
      · have hany : (r :: rs).any (fun x => x.did = did) = false := by
          simp only [List.any_cons, Bool.or_eq_false_iff]
          exact ⟨by simp [hr], by simpa using hany2⟩
        simp only [cacheDid, hany, Bool.false_eq_true, if_false, List.cons_append,
          List.find?_cons]
        rw [decide_eq_false hr]
        have hany2f : rs.any (fun x => x.did = did) = false := by simpa using hany2
        simp only [cacheDid, hany2f, Bool.false_eq_true, if_false] at ih
        exact ih

/-- C6: a cache read returns absent before any put; a read after a put at
time `t` returns the stored entry with `expired` computed at read time as
`now > t + ttl` — not expired immediately after the put, and expired once
more than `ttl` has elapsed, with the same stored document and timestamp
returned. -/
theorem checkCache_ttl_read_time (db : List DidCacheRow) (ttl : ℕ)
    (did doc : String) (t now : ℕ) :
    (checkCache [] ttl did now = none) ∧
    (db.find? (fun r => r.did = did) = none → checkCache db ttl did now = none) ∧
    (checkCache (cacheDid db did doc t) ttl did now =
      some ⟨doc, t, did, decide (now > t + ttl)⟩) ∧
    (checkCache (cacheDid db did doc t) ttl did t = some ⟨doc, t, did, false⟩) ∧
    (now > t + ttl →
      checkCache (cacheDid db did doc t) ttl did now = some ⟨doc, t, did, true⟩) := by
  refine ⟨rfl, ?_, ?_, ?_, ?_⟩
  · intro h
    simp [checkCache, h]
  · simp [checkCache, find?_cacheDid]
  · simp only [checkCache, find?_cacheDid]
    rw [decide_eq_false (by omega : ¬t > t + ttl)]
  · intro h
    simp only [checkCache, find?_cacheDid]
    rw [decide_eq_true h]

/-- C6 witness: with `ttl = 50`, a put at `t = 100` reads back not-expired at
`now = 100` and expired (same document, same timestamp) at `now = 151`; the
empty cache reads absent. -/
theorem checkCache_ttl_read_time_witness :
    checkCache [] 50 "did:a" 100 = none ∧
    checkCache (cacheDid [] "did:a" "doc1" 100) 50 "did:a" 100 =
      some ⟨"doc1", 100, "did:a", false⟩ ∧
    checkCache (cacheDid [] "did:a" "doc1" 100) 50 "did:a" 151 =
      some ⟨"doc1", 100, "did:a", true⟩ := by
  refine ⟨(checkCache_ttl_read_time [] 50 "did:a" "doc1" 100 100).1,
    (checkCache_ttl_read_time [] 50 "did:a" "doc1" 100 100).2.2.2.1,
    (checkCache_ttl_read_time [] 50 "did:a" "doc1" 100 151).2.2.2.2 (by omega)⟩

/-- The conflict-update arm of the upsert never changes a row's `did`. -/
theorem upsert_did (did doc : String) (t : ℕ) (r : DidCacheRow) :
    (if r.did = did then ({ r with doc := doc, updatedAt := t } : DidCacheRow)
      else r).did = r.did := by
  split <;> rfl

/-- Rows whose `did` all differ from `did` are dropped by the `did` filter. -/
theorem filter_did_eq_nil (l : List DidCacheRow) (did : String)
    (h : ∀ r ∈ l, r.did ≠ did) :
    l.filter (fun r => r.did = did) = [] := by
  induction l with
  | nil => rfl
  | cons x xs ih =>
    rw [List.filter_cons, if_neg (by simpa using h x (List.mem_cons_self x xs))]
    exact ih (fun r hr => h r (List.mem_cons_of_mem x hr))

/-- The upsert preserves the unique-`did` constraint. -/
theorem uniqueDids_cacheDid (db : List DidCacheRow) (did doc : String) (t : ℕ)
    (hu : uniqueDids db) : uniqueDids (cacheDid db did doc t) := by
  unfold cacheDid
  by_cases hany : db.any (fun r => r.did = did) = true
  · rw [if_pos hany]
    unfold uniqueDids at *
    rw [List.pairwise_map]
    exact hu.imp (fun {a b} hab => by
      rw [upsert_did did doc t a, upsert_did did doc t b]; exact hab)
  · rw [if_neg hany]
    unfold uniqueDids at *
    rw [List.pairwise_append]
    refine ⟨hu, by simp, ?_⟩
    intro a ha b hb
    have hb2 : b = ⟨did, doc, t⟩ := by simpa using hb
    subst hb2
    have := (List.any_eq_false.mp (Bool.not_eq_true _ ▸ hany)) a ha
    simpa using this

/-- After an upsert into a table with unique `did`s, the rows for `did` are
exactly the single row just written. -/
theorem filter_cacheDid (db : List DidCacheRow) (did doc : String) (t : ℕ)
    (hu : uniqueDids db) :
    (cacheDid db did doc t).filter (fun r => r.did = did) = [⟨did, doc, t⟩] := by
  induction db with
  | nil => simp [cacheDid, List.filter]
  | cons r rs ih =>
    have hu1 : ∀ r2 ∈ rs, r.did ≠ r2.did := (List.pairwise_cons.mp hu).1
    have hu2 : uniqueDids rs := (List.pairwise_cons.mp hu).2
    by_cases hr : r.did = did
    · have hany : (r :: rs).any (fun x => x.did = did) = true := by simp [hr]
      simp only [cacheDid, hany, if_true, List.map_cons]
      rw [List.filter_cons, if_pos (by simp [upsert_did, hr])]
      have hrest : (rs.map (fun x => if x.did = did then
          ({ x with doc := doc, updatedAt := t } : DidCacheRow) else x)).filter
          (fun x => x.did = did) = [] := by
        refine filter_did_eq_nil _ did ?_
        intro x hx
        obtain ⟨x0, hx0, rfl⟩ := List.mem_map.mp hx
        rw [upsert_did]
        rw [← hr]
        exact (hu1 x0 hx0).symm
      rw [hrest]
      simp [hr]
    · by_cases hany2 : rs.any (fun x => x.did = did) = true
      · have hany : (r :: rs).any (fun x => x.did = did) = true := by
          simp [List.any_cons, hany2]
        simp only [cacheDid, hany, if_true, List.map_cons]
        rw [List.filter_cons, if_neg (by rw [upsert_did]; simpa using hr)]
        have := ih hu2
        simp only [cacheDid, hany2, if_true] at this
        exact this
      · have hany : (r :: rs).any (fun x => x.did = did) = false := by
          simp only [List.any_cons, Bool.or_eq_false_iff]
          exact ⟨by simp [hr], by simpa using hany2⟩
        simp only [cacheDid, hany, Bool.false_eq_true, if_false, List.cons_append]
        rw [List.filter_cons, if_neg (by simpa using hr)]
        have hany2f : rs.any (fun x => x.did = did) = false := by simpa using hany2
        have := ih hu2
        simp only [cacheDid, hany2f, Bool.false_eq_true, if_false] at this
        exact this

/-- C7: the upsert keeps at most one row per identity and unconditionally
overwrites on conflict: starting from any table satisfying the unique-`did`
constraint, the constraint is preserved, and after two successive puts for
the same identity exactly one row for it exists, holding the second document
and the second timestamp. -/
theorem cacheDid_upsert_last_write_wins (db : List DidCacheRow)
    (did d1 d2 : String) (t1 t2 : ℕ) (hu : uniqueDids db) :
    uniqueDids (cacheDid db did d1 t1) ∧
    (cacheDid (cacheDid db did d1 t1) did d2 t2).filter (fun r => r.did = did) =
      [⟨did, d2, t2⟩] ∧
    uniqueDids (cacheDid (cacheDid db did d1 t1) did d2 t2) := by
  have h1 := uniqueDids_cacheDid db did d1 t1 hu
  exact ⟨h1, filter_cacheDid _ did d2 t2 h1, uniqueDids_cacheDid _ did d2 t2 h1⟩

/-- C7 witness: two puts for `did:a` on the empty table leave exactly the
single row with the second document and timestamp. -/
theorem cacheDid_upsert_last_write_wins_witness :
    (cacheDid (cacheDid [] "did:a" "d1" 1) "did:a" "d2" 2).filter
      (fun r => r.did = "did:a") = [⟨"did:a", "d2", 2⟩] :=
  (cacheDid_upsert_last_write_wins [] "did:a" "d1" "d2" 1 2
    (by simp [uniqueDids])).2.1

/-- C8 (modelled from the spec): any number `n ≥ 1` of cache misses for the
same identity arriving while no resolution for it has completed collapse into
exactly one resolver call beyond those already logged, and the identity stays
registered as in flight. -/
theorem singleFlight_collapse (s : FlightState) (did : String) (n : ℕ)
    (hout : did ∉ s.inflight) (hn : 1 ≤ n) :
    (concurrentMisses s did n).resolverCalls.count did =
      s.resolverCalls.count did + 1 ∧
    did ∈ (concurrentMisses s did n).inflight := by
  induction n with
  | zero => omega
  | succ m ih =>
    by_cases hm : m = 0
    · subst hm
      simp only [concurrentMisses, requestResolve, if_neg hout]
      exact ⟨by simp, by simp⟩
    · obtain ⟨hc, hmem⟩ := ih (by omega)
      simp only [concurrentMisses, requestResolve, if_pos hmem]
      exact ⟨hc, hmem⟩

/-- C8 witness: three concurrent misses for `did:a` starting from the idle
registry issue exactly one resolver call. -/
theorem singleFlight_collapse_witness :
    (concurrentMisses ⟨[], []⟩ "did:a" 3).resolverCalls.count "did:a" = 1 := by
  have h := singleFlight_collapse ⟨[], []⟩ "did:a" 3 (by simp) (by omega)
  simpa using h.1

/-- If `parseBasicAuth` returns credentials, neither component contains a
colon — both are segments of the colon split. -/
theorem parseBasicAuth_no_colon (b64 : String → Option String)
    (token u pw : String) (h : parseBasicAuth b64 token = some (u, pw)) :
    ':' ∉ u.data ∧ ':' ∉ pw.data := by
  unfold parseBasicAuth at h
  split at h
  · exact Option.noConfusion h
  · split at h
    · exact Option.noConfusion h
    · rename_i decoded hdec
      split at h
      · rename_i username password rest hsp
        split at h
        · exact Option.noConfusion h
        · have hup : username = u ∧ password = pw := by
            have h2 := Option.some.inj h
            exact ⟨congrArg Prod.fst h2, congrArg Prod.snd h2⟩
          obtain ⟨rfl, rfl⟩ := hup
          constructor
          · exact splitOnChar_not_mem ':' decoded _
              (by rw [hsp]; exact List.mem_cons_self _ _)
          · exact splitOnChar_not_mem ':' decoded _
              (by rw [hsp]; exact List.mem_cons_of_mem _ (List.mem_cons_self _ _))
      · exact Option.noConfusion h

/-- C9: the decoded Basic credential string is split on every colon and only
the first two segments are kept — for credentials `u:p:rest` with `u`, `p`
colon-free the parsed password is exactly the text `p` between the first and
second colon; consequently, a configured admin password containing a colon
makes `verifyAdmin` return `false` on every request, even one presenting
exactly the configured `admin:password` pair. -/
theorem parseBasicAuth_colon_split (b64 : String → Option String) :
    (∀ (token u pw rest decoded : String),
      jsStartsWith token "Basic " = true →
      b64 (jsDrop token 6) = some decoded →
      decoded = u ++ ":" ++ pw ++ ":" ++ rest →
      ':' ∉ u.data → ':' ∉ pw.data → u ≠ "" → pw ≠ "" →
      parseBasicAuth b64 token = some (u, pw)) ∧
    (∀ (adminPass : String) (authorization : Option String),
      ':' ∈ adminPass.data →
      verifyAdmin b64 adminPass authorization = false) := by
  constructor
  · intro token u pw rest decoded hst hdec hdecomp hu hp hu0 hp0
    have hdata : decoded.data = u.data ++ ':' :: (pw.data ++ ':' :: rest.data) := by
      rw [hdecomp]
      show (((u.data ++ [':']) ++ pw.data) ++ [':']) ++ rest.data = _
      simp [List.append_assoc]
    have hsplit : splitOnChar ':' decoded = u :: pw :: splitOnChar ':' rest := by
      unfold splitOnChar
      rw [hdata, splitOnCharAux_append ':' u.data _ [] hu,
        splitOnCharAux_append ':' pw.data _ [] hp]
      simp only [List.reverse_nil, List.nil_append]
    simp only [parseBasicAuth, hst, Bool.not_true, Bool.false_eq_true, if_false,
      hdec, hsplit]
    rw [if_neg (by push_neg; exact ⟨hu0, hp0⟩)]
  · intro adminPass authorization hcolon
    cases hb : verifyAdmin b64 adminPass authorization
    · rfl
    · exfalso
      unfold verifyAdmin at hb
      split at hb
      · exact Bool.noConfusion hb
      · rename_i u pw hp
        split at hb
        · exact Bool.noConfusion hb
        · split at hb
          · exact Bool.noConfusion hb
          · rename_i hu hpw
            have h2 := (parseBasicAuth_no_colon b64 _ u pw hp).2
            rw [not_not.mp hpw] at h2
            exact h2 hcolon

/-- The decoder used for the C9 witness: stands in for base64 decoding of a
credential blob whose password part contains a colon. -/
def b64w : String → Option String := fun _ => some "admin:a:b"

/-- C9 witness: decoded credentials `admin:a:b` parse to password `"a"` (the
text between the first and second colon), and with configured admin password
`"a:b"` the exact presented pair still yields `false`. -/
theorem parseBasicAuth_colon_split_witness :
    parseBasicAuth b64w "Basic xyz" = some ("admin", "a") ∧
    verifyAdmin b64w "a:b" (some "Basic xyz") = false := by
  exact ⟨(parseBasicAuth_colon_split b64w).1 "Basic xyz" "admin" "a" "b" "admin:a:b"
      (by decide) rfl (by decide) (by decide) (by decide) (by decide) (by decide),
    (parseBasicAuth_colon_split b64w).2 "a:b" (some "Basic xyz") (by decide)⟩

/-- C10: the service-token issuer's segment encoder emits the raw JSON text
(no base64url step), the federated verifier's segment decoder parses with no
base64url decoding, and the two compose: the token is
`header.payload.signature` with the payload segment the raw JSON text, whose
parse recovers exactly the signed `{iss, exp}` object. -/
theorem createServiceJwt_payload_roundtrip
    (stringifyH : ServiceJwtHeader → String)
    (stringifyP : ServiceJwtPayload → String)
    (parseP : String → Option ServiceJwtPayload) (signB64url : String → String)
    (jwtAlg accountDid : String) (nowMs : ℕ)
    (hparse : parseP (stringifyP ⟨accountDid, (nowMs + MINUTE) / 1000⟩) =
      some ⟨accountDid, (nowMs + MINUTE) / 1000⟩) :
    (∀ p : ServiceJwtPayload, jsonToB64Url stringifyP p = stringifyP p) ∧
    createServiceJwt stringifyH stringifyP signB64url jwtAlg accountDid nowMs =
      stringifyH ⟨"JWT", jwtAlg⟩ ++ "." ++
        stringifyP ⟨accountDid, (nowMs + MINUTE) / 1000⟩ ++ "." ++
        signB64url (stringifyH ⟨"JWT", jwtAlg⟩ ++ "." ++
          stringifyP ⟨accountDid, (nowMs + MINUTE) / 1000⟩) ∧
    parseB64UrlToJson parseP
      (jsonToB64Url stringifyP ⟨accountDid, (nowMs + MINUTE) / 1000⟩) =
      some ⟨accountDid, (nowMs + MINUTE) / 1000⟩ :=
  ⟨fun _ => rfl, rfl, hparse⟩

/-- Concrete header serializer for the C10 witness. -/
def stringifyHeaderW (h : ServiceJwtHeader) : String :=
  "\x7b\"typ\":\"" ++ h.typ ++ "\",\"alg\":\"" ++ h.alg ++ "\"\x7d"

/-- C10 witness: at `Date.now() = 0` the issued token is the two raw JSON
texts and the signature joined by dots, and the verifier-side parse of the
payload segment recovers `{iss: did:example:alice, exp: 60}`. -/
theorem createServiceJwt_payload_roundtrip_witness :
    createServiceJwt stringifyHeaderW stringifyServicePayload (fun _ => "SIG")
        "ES256K" "did:example:alice" 0 =
      "\x7b\"typ\":\"JWT\",\"alg\":\"ES256K\"\x7d.\x7b\"iss\":\"did:example:alice\",\"exp\":60\x7d.SIG" ∧
    parseB64UrlToJson parseServicePayload
      (jsonToB64Url stringifyServicePayload ⟨"did:example:alice", 60⟩) =
      some ⟨"did:example:alice", 60⟩ := by
  have h := createServiceJwt_payload_roundtrip stringifyHeaderW
    stringifyServicePayload parseServicePayload (fun _ => "SIG") "ES256K"
    "did:example:alice" 0 (by decide)
  refine ⟨?_, ?_⟩
  · rw [h.2.1]
    decide
  · have h60 : ((0 + MINUTE) / 1000 : ℕ) = 60 := by decide
    have := h.2.2
    rw [h60] at this
    exact this
